import Mathlib

/-!
Verification of the Beacon polling and alerting engine.

This file gives a shallow embedding of the engine's core functions
(rule evaluation with dotted-path access, template interpolation and
operator semantics; the alert-state dedup and notification layers; the
per-tenant polling-window and status logic; the run-history row-key
scheme) and proves the specified properties about them.

Modelling conventions:
- JavaScript values reachable by rule conditions are modelled by the
  inductive `JsValue` (a sum of undefined, null, string, integer,
  boolean, array and object), and JavaScript coercion `String(v)` by
  `jsString`.
- Machine timestamps (`Date.getTime()` milliseconds) are modelled as
  `Int`.
- The external key-value tables are modelled as association lists keyed
  the way the code keys its entities (partition key, row key).
- The SHA-256 digest used for row keys is kept abstract: definitions
  take an arbitrary `hash : String → String` parameter; no claim here
  depends on properties of the digest.
-/

set_option maxRecDepth 16384

namespace Beacon

/-- JavaScript `toLowerCase()` modelled characterwise (the engine only
lowercases ASCII identifiers, addresses and rule text). -/
def jsToLower (s : String) : String :=
  String.mk (s.data.map Char.toLower)

/-- Model of the JavaScript values the rule engine traverses. -/
inductive JsValue where
  | vundefined : JsValue
  | vnull : JsValue
  | vstr : String → JsValue
  | vnum : Int → JsValue
  | vbool : Bool → JsValue
  | varr : List JsValue → JsValue
  | vobj : List (String × JsValue) → JsValue
deriving Repr, BEq

mutual

/-- JavaScript `String(v)` coercion on the model. -/
def jsString : JsValue → String
  | .vundefined => "undefined"
  | .vnull => "null"
  | .vstr s => s
  | .vnum n => toString n
  | .vbool true => "true"
  | .vbool false => "false"
  | .varr es => jsArrJoin es
  | .vobj _ => "[object Object]"

/-- Array stringification: elements joined by commas. -/
def jsArrJoin : List JsValue → String
  | [] => ""
  | [e] => jsArrElem e
  | e :: e2 :: es => jsArrElem e ++ "," ++ jsArrJoin (e2 :: es)

/-- Inside an array join, null and undefined render as empty. -/
def jsArrElem : JsValue → String
  | .vundefined => ""
  | .vnull => ""
  | v => jsString v

end

/-- Bool test for the JavaScript comparison `v === undefined`. -/
def isVUndefined : JsValue → Bool
  | .vundefined => true
  | _ => false

/-- Bool test for the JavaScript comparison `v === null`. -/
def isVNull : JsValue → Bool
  | .vnull => true
  | _ => false

/-- Bool test: does the character list `hay` start with `pat`. -/
def listStartsWith : List Char → List Char → Bool
  | [], _ => true
  | _ :: _, [] => false
  | p :: ps, c :: cs => p == c && listStartsWith ps cs

/-- Bool test: does `hay` contain `pat` as a contiguous run
(JavaScript `String.prototype.includes`). -/
def containsSub (pat : List Char) : List Char → Bool
  | [] => pat.isEmpty
  | c :: cs => listStartsWith pat (c :: cs) || containsSub pat cs

/-- Value of a leading digit run; `none` when there is no digit
(the `NaN` case of `parseInt`). -/
def leadingDigitsVal (cs : List Char) : Option Nat :=
  let ds := cs.takeWhile (fun c => c.isDigit)
  if ds.isEmpty then none
  else some (ds.foldl (fun a c => 10 * a + (c.toNat - 48)) 0)

/-- JavaScript `parseInt(s, 10)`: skip leading whitespace, optional
sign, leading digits; `none` models `NaN`. -/
def jsParseInt (s : String) : Option Int :=
  match s.data.dropWhile (fun c => c.isWhitespace) with
  | '-' :: rest => (leadingDigitsVal rest).map (fun n => -(n : Int))
  | '+' :: rest => (leadingDigitsVal rest).map (fun n => (n : Int))
  | rest => (leadingDigitsVal rest).map (fun n => (n : Int))

/-- JavaScript array indexing `arr[i]`: undefined when out of range. -/
def arrIndex (es : List JsValue) (i : Int) : JsValue :=
  if i < 0 then JsValue.vundefined
  else es.getD i.toNat JsValue.vundefined

/-- JavaScript object property read: undefined when the key is absent. -/
def objGet (fs : List (String × JsValue)) (k : String) : JsValue :=
  match fs.find? (fun p => p.1 == k) with
  | some p => p.2
  | none => JsValue.vundefined

/-- JavaScript `path.split(sep)` for a one-character separator, at the
character level: an empty path yields one empty segment, adjacent
separators yield empty segments. -/
def splitCharsOn (sep : Char) : List Char → List (List Char)
  | [] => [[]]
  | c :: rest =>
    if c = sep then [] :: splitCharsOn sep rest
    else
      match splitCharsOn sep rest with
      | g :: gs => (c :: g) :: gs
      | [] => [[c]]

/-- JavaScript `trim()`: strip whitespace from both ends. -/
def jsTrim (s : String) : String :=
  String.mk (((s.data.dropWhile Char.isWhitespace).reverse.dropWhile
    Char.isWhitespace).reverse)

/-- Loop body of `getNestedValue`: walk the split path segments. -/
def getNestedGo : JsValue → List String → JsValue
  | cur, [] => cur
  | cur, part :: parts =>
    match cur with
    | .vundefined => JsValue.vundefined
    | .vnull => JsValue.vundefined
    | .varr es =>
      match jsParseInt part with
      | none => JsValue.vundefined
      | some i => getNestedGo (arrIndex es i) parts
    | .vobj fs => getNestedGo (objGet fs part) parts
    | _ => JsValue.vundefined

/-- `getNestedValue(obj, path)`: dotted-path traversal with numeric
indices for arrays. -/
def getNestedValue (obj : JsValue) (path : String) : JsValue :=
  getNestedGo obj ((splitCharsOn '.' path.data).map String.mk)

/-- Replacement text for one interpolation token with inner text `p`:
the stringified value at the trimmed path, or empty for
undefined/null. -/
def tokenReplacement (ev : JsValue) (p : List Char) : List Char :=
  let v := getNestedValue ev (jsTrim (String.mk p))
  if isVUndefined v || isVNull v then []
  else (jsString v).data

/-- Try to read `inner-path, closing braces, remainder` off the text
that follows an opening double brace: succeeds when a nonempty run of
non-closing-brace characters is followed by two closing braces. -/
def splitToken (l : List Char) : Option (List Char × List Char) :=
  let p := l.takeWhile (fun c => c ≠ '}')
  if p.isEmpty then none
  else
    match l.drop p.length with
    | '}' :: '}' :: rest => some (p, rest)
    | _ => none

/-- The interpolation scanner over the template's characters: the
faithful rendering of the global regex replace of double-brace tokens.
On a failed match at a double brace the scanner advances one character,
as the regex engine does. -/
def interpChars (ev : JsValue) : List Char → List Char
  | [] => []
  | c :: rest =>
    if c = '{' ∧ rest.head? = some '{' then
      match h : splitToken rest.tail with
      | some (p, rest2) => tokenReplacement ev p ++ interpChars ev rest2
      | none => c :: interpChars ev rest
    else c :: interpChars ev rest
termination_by l => l.length
decreasing_by
  · simp only [splitToken] at h
    split at h
    · exact absurd h (by simp)
    · split at h
      · rename_i rest0 hd
        injection h with h1
        injection h1 with h2 h3
        subst h3
        have hlen := congrArg List.length hd
        simp only [List.length_drop, List.length_tail, List.length_cons] at hlen
        simp
        omega
      · exact absurd h (by simp)
  · simp
  · simp

/-- `interpolateTemplateValue(template, event)`. -/
def interpolateTemplateValue (template : String) (ev : JsValue) : String :=
  String.mk (interpChars ev template.data)

/-- Rule comparison operators. -/
inductive RuleOperator where
  | Exists : RuleOperator
  | Equals : RuleOperator
  | NotEquals : RuleOperator
  | Contains : RuleOperator
deriving Repr, BEq, DecidableEq

/-- `String(expectedValue)` where the expected value may be absent. -/
def jsStringOfExpected : Option String → String
  | none => "undefined"
  | some s => s

/-- `matchesOperator(actualValue, operator, expectedValue)`. -/
def matchesOperator (actualValue : JsValue) (operator : RuleOperator)
    (expectedValue : Option String) : Bool :=
  match operator with
  | .Exists => !(isVUndefined actualValue) && !(isVNull actualValue)
  | .Equals =>
    jsToLower (jsString actualValue) == jsToLower (jsStringOfExpected expectedValue)
  | .NotEquals =>
    !(jsToLower (jsString actualValue) == jsToLower (jsStringOfExpected expectedValue))
  | .Contains =>
    containsSub (jsToLower (jsStringOfExpected expectedValue)).data
      (jsToLower (jsString actualValue)).data

/-- A single rule condition. -/
structure RuleCondition where
  field : String
  operator : RuleOperator
  value : Option String
deriving Repr, BEq, DecidableEq

/-- `evaluateCondition(event, condition)`: read the field, interpolate
the expected value when present, apply the operator. -/
def evaluateCondition (ev : JsValue) (condition : RuleCondition) : Bool :=
  matchesOperator (getNestedValue ev condition.field) condition.operator
    (condition.value.map (fun t => interpolateTemplateValue t ev))

/-- Condition match mode. -/
inductive MatchMode where
  | all : MatchMode
  | any : MatchMode
deriving Repr, BEq, DecidableEq

/-- A rule's condition block. -/
structure RuleConditions where
  matchMode : MatchMode
  rules : List RuleCondition
deriving Repr, BEq, DecidableEq

/-- `evaluateConditions(event, conditions)`: empty condition list never
matches; `all` is a conjunction, `any` a disjunction. -/
def evaluateConditions (ev : JsValue) (conditions : RuleConditions) : Bool :=
  if conditions.rules.isEmpty then false
  else
    match conditions.matchMode with
    | .all => conditions.rules.all (fun c => evaluateCondition ev c)
    | .any => conditions.rules.any (fun c => evaluateCondition ev c)

/-- `matchesException(event, exceptions)`: true when any exception
condition evaluates to true. -/
def matchesException (ev : JsValue) (exceptions : Option (List RuleCondition)) : Bool :=
  match exceptions with
  | none => false
  | some l => if l.isEmpty then false else l.any (fun c => evaluateCondition ev c)

/-- Event source type. -/
inductive RuleSource where
  | AuditLog : RuleSource
  | SignIn : RuleSource
  | SecurityAlert : RuleSource
deriving Repr, BEq, DecidableEq

/-- Rule severity levels. -/
inductive Severity where
  | Low : Severity
  | Medium : Severity
  | High : Severity
  | Critical : Severity
deriving Repr, BEq, DecidableEq

/-- A detection rule. -/
structure Rule where
  id : String
  name : String
  description : String
  severity : Severity
  enabled : Bool
  source : RuleSource
  conditions : RuleConditions
  exceptions : Option (List RuleCondition)
  tenantIds : Option (List String)
deriving Repr, BEq, DecidableEq

/-- The tenant-scope part of the applicability filter. The caller's
tenant id is an optional string; the code treats a missing or empty
tenant id as not supplied (JavaScript truthiness of the parameter). -/
def tenantFilterOk (tenantId : Option String) (rule : Rule) : Bool :=
  match rule.tenantIds with
  | some ts =>
    if ts.length > 0 then
      match tenantId with
      | none => false
      | some t => if t == ("") then false else ts.contains t
    else true
  | none => true

/-- The applicability filter of `evaluateRules`: enabled, same source,
in tenant scope. -/
def ruleApplicable (source : RuleSource) (tenantId : Option String) (rule : Rule) : Bool :=
  rule.enabled && rule.source == source && tenantFilterOk tenantId rule

/-- `evaluateRules(event, source, tenantId?)`. The rule list returned
by the loader is passed explicitly. Filters applicable rules, then
returns the first whose conditions match and that no exception vetoes. -/
def evaluateRules (ev : JsValue) (source : RuleSource) (rules : List Rule)
    (tenantId : Option String) : Option Rule :=
  (rules.filter (ruleApplicable source tenantId)).find?
    (fun rule => evaluateConditions ev rule.conditions &&
      !(matchesException ev rule.exceptions))

/-! Alert-state store: dedup and notification tables.

Keys are (partition key, row key) pairs exactly as the code stores its
entities; tables are association lists looked up by key. Timestamps are
milliseconds since the epoch (`Date.getTime()`). -/

/-- Dedup window: 5 minutes in milliseconds. -/
def DEDUP_WINDOW_MS : Int := 5 * 60 * 1000

/-- Notification window: 60 minutes in milliseconds. -/
def NOTIFICATION_WINDOW_MS : Int := 60 * 60 * 1000

/-- `generateRowKey(ruleName, user)`: digest of the rule name joined
with the lowercased user, truncated to 32 characters. The digest
function itself is a parameter. -/
def generateRowKey (hash : String → String) (ruleName user : String) : String :=
  String.mk ((hash (ruleName ++ "|" ++ jsToLower user)).data.take 32)

/-- A keyed table of values, as stored in the external key-value store. -/
def KeyedTable (α : Type) : Type := List ((String × String) × α)

/-- Read the entry stored under (partition key, row key). -/
def tableGet {α : Type} (tbl : KeyedTable α) (pk rk : String) : Option α :=
  (tbl.find? (fun e => e.1 == (pk, rk))).map (fun e => e.2)

/-- `upsertEntity` in Replace mode: the key now maps to the new value. -/
def tableUpsert {α : Type} (tbl : KeyedTable α) (pk rk : String) (v : α) : KeyedTable α :=
  ((pk, rk), v) :: tbl.filter (fun e => !(e.1 == (pk, rk)))

/-- A dedup entry: the recorded event timestamp (the rule name and user
also stored alongside play no role in lookups). -/
def DedupTable : Type := KeyedTable Int

/-- A notification entry: last-notified instant and alert count. -/
def NotificationTable : Type := KeyedTable (Int × Int)

/-- `isDuplicate(tenantId, ruleName, user, eventTime)`: absent entry is
not a duplicate; a present entry is a duplicate exactly when the
absolute difference to the stored timestamp is under five minutes. -/
def isDuplicate (hash : String → String) (dedup : DedupTable)
    (tenantId ruleName user : String) (eventTime : Int) : Bool :=
  match tableGet dedup tenantId (generateRowKey hash ruleName user) with
  | none => false
  | some stored => |eventTime - stored| < DEDUP_WINDOW_MS

/-- `recordAlert(tenantId, ruleName, user, eventTime)`: upsert the
entry with the event timestamp. -/
def recordAlert (hash : String → String) (dedup : DedupTable)
    (tenantId ruleName user : String) (eventTime : Int) : DedupTable :=
  tableUpsert dedup tenantId (generateRowKey hash ruleName user) eventTime

/-- `wasNotifiedRecently(tenantId, ruleName, user)`: true when an entry
exists whose last-notified instant is less than an hour before now. -/
def wasNotifiedRecently (hash : String → String) (notif : NotificationTable)
    (now : Int) (tenantId ruleName user : String) : Bool :=
  match tableGet notif tenantId (generateRowKey hash ruleName user) with
  | none => false
  | some e => now - e.1 < NOTIFICATION_WINDOW_MS

/-- `recordNotification(tenantId, ruleName, user)`: upsert, setting the
last-notified instant to now and incrementing the alert count (1 on
first write). -/
def recordNotification (hash : String → String) (notif : NotificationTable)
    (now : Int) (tenantId ruleName user : String) : NotificationTable :=
  let rk := generateRowKey hash ruleName user
  let alertCount : Int :=
    match tableGet notif tenantId rk with
    | some e => e.2 + 1
    | none => 1
  tableUpsert notif tenantId rk (now, alertCount)

/-- The two alert-state tables together. -/
structure AlertState where
  dedup : DedupTable
  notif : NotificationTable

/-- The fields of an emitted alert that the alert-state pipeline
determines. -/
structure ProcessedAlert where
  ClientTenantId : String
  User : String
  RuleName : String
  Severity : Severity
  TimeGenerated : Int
  ShouldNotify : Bool
deriving Repr, BEq, DecidableEq

/-- `processAlert`: the two-layer pipeline run for one matched event.
Layer 1 suppresses a five-minute duplicate and otherwise records the
event; layer 2 computes the notification flag (Critical bypasses the
throttle) and records the notification exactly when the flag is set.
Returns the emitted alert (or none when suppressed) and the updated
state. -/
def processAlert (hash : String → String) (st : AlertState) (now : Int)
    (tenantId ruleName : String) (severity : Severity) (user : String)
    (eventTime : Int) : Option ProcessedAlert × AlertState :=
  if isDuplicate hash st.dedup tenantId ruleName user eventTime then
    (none, st)
  else
    let st1 : AlertState :=
      { st with dedup := recordAlert hash st.dedup tenantId ruleName user eventTime }
    let isCritical := severity == Severity.Critical
    let recentlyNotified := wasNotifiedRecently hash st1.notif now tenantId ruleName user
    let shouldNotify := isCritical || !recentlyNotified
    let st2 : AlertState :=
      if shouldNotify then
        { st1 with notif := recordNotification hash st1.notif now tenantId ruleName user }
      else st1
    (some { ClientTenantId := tenantId, User := user, RuleName := ruleName,
            Severity := severity, TimeGenerated := eventTime,
            ShouldNotify := shouldNotify }, st2)

/-! Tenant records, per-tenant status writes and window selection. -/

/-- Tenant status after a poll. -/
inductive ClientStatus where
  | success : ClientStatus
  | auditLogDisabled : ClientStatus
  | appNotConsented : ClientStatus
  | permissionDenied : ClientStatus
  | tenantNotFound : ClientStatus
  | error : ClientStatus
deriving Repr, BEq, DecidableEq

/-- A tenant record as stored in the Clients table. -/
structure Client where
  tenantId : String
  name : String
  lastPoll : Option Int
  status : Option ClientStatus
  statusMessage : Option String
deriving Repr, BEq, DecidableEq

/-- `updateClientStatus(tenantId, status, statusMessage?)` applied to an
existing client row: replaces the row keeping the name, writing the
wall clock at write time into `lastPoll`, the given status, and the
message (empty when absent). -/
def updateClientStatus (writeTime : Int) (c : Client) (status : ClientStatus)
    (statusMessage : Option String) : Client :=
  { c with lastPoll := some writeTime,
           status := some status,
           statusMessage := some (statusMessage.getD ("")) }

/-- The per-tenant terminal write of the polling handler: on success,
status success with no message; on failure, the classified status and
message. Both paths go through `updateClientStatus`. -/
def tenantOutcomeWrite (writeTime : Int) (c : Client)
    (outcome : Except (ClientStatus × String) Unit) : Client :=
  match outcome with
  | .ok _ => updateClientStatus writeTime c ClientStatus.success none
  | .error e => updateClientStatus writeTime c e.1 (some e.2)

/-- Default lookback: 60 minutes in milliseconds. -/
def defaultLookback : Int := 60 * 60 * 1000

/-- Maximum lookback: 6 hours in milliseconds. -/
def maxLookback : Int := 6 * 60 * 60 * 1000

/-- The polling-window lower bound computed by the handler for one
tenant: the default lookback for a tenant never polled, otherwise the
later of the last poll and the six-hour floor. -/
def computeSince (now : Int) (lastPoll : Option Int) : Int :=
  match lastPoll with
  | some lastPollTime =>
    let maxLookbackTime := now - maxLookback
    if lastPollTime > maxLookbackTime then lastPollTime else maxLookbackTime
  | none => now - defaultLookback

/-! Run-history row keys. -/

/-- Big-endian base-10 digit list of a natural number (the rendering
used by JavaScript `Number.prototype.toString` for nonnegative safe
integers). -/
def natDigits (n : Nat) : List Nat :=
  if h : n < 10 then [n]
  else natDigits (n / 10) ++ [n % 10]
decreasing_by
  exact Nat.div_lt_self (by omega) (by omega)

/-- The character of a decimal digit. -/
def digitChar (d : Nat) : Char :=
  Char.ofNat (48 + d)

/-- Decimal rendering of a natural number via `natDigits`. -/
def natDecimal (n : Nat) : String :=
  String.mk ((natDigits n).map digitChar)

/-- `padStart(width, c)`: left-pad to the width when shorter. -/
def padStart (s : String) (width : Nat) (c : Char) : String :=
  if width ≤ s.length then s
  else String.mk (List.replicate (width - s.length) c) ++ s

/-- The sentinel used by the run-history key scheme. -/
def maxTicks : Nat := 9999999999999

/-- `invertedTimestamp(date)`: the decimal of `maxTicks` minus the
start instant's milliseconds, left-padded with zeros to 13 characters.
Defined for instants up to the sentinel (every epoch millisecond value
the scheme is used with). -/
def invertedTimestamp (ticks : Nat) : String :=
  padStart (natDecimal (maxTicks - ticks)) 13 '0'

/-! Event summaries. -/

/-- The audit-event fields the engine reads. -/
structure AuditEvent where
  Id : String
  CreationTime : String
  Operation : String
  UserId : String
  Workload : String
deriving Repr, BEq, DecidableEq

/-- The sign-in log fields the engine reads. -/
structure SignInLog where
  id : String
  createdDateTime : String
  userPrincipalName : String
  appDisplayName : String
  riskLevelDuringSignIn : String
  ipAddress : String
deriving Repr, BEq, DecidableEq

/-- The security-alert fields the engine reads. -/
structure SecurityAlert where
  id : String
  createdDateTime : String
  title : String
  category : String
  severity : String
deriving Repr, BEq, DecidableEq

/-- A typed event of one of the three source types. -/
inductive EventData where
  | audit : AuditEvent → EventData
  | signIn : SignInLog → EventData
  | alert : SecurityAlert → EventData
deriving Repr, BEq, DecidableEq

/-- The source-specific salient line before truncation. -/
def summaryLine : EventData → String
  | .audit a =>
    "Operation: " ++ a.Operation ++ ", User: " ++ a.UserId ++ ", Workload: " ++ a.Workload
  | .signIn s =>
    "User: " ++ s.userPrincipalName ++ ", App: " ++ s.appDisplayName ++
      ", Risk: " ++ s.riskLevelDuringSignIn ++ ", IP: " ++ s.ipAddress
  | .alert x =>
    "Title: " ++ x.title ++ ", Category: " ++ x.category ++ ", Severity: " ++ x.severity

/-- `getEventSummary(event, source)`: the salient line, truncated to
500 characters with a three-character ellipsis appended when it was
longer. `substring(0, 500)` is modelled on the character list. -/
def getEventSummary (e : EventData) : String :=
  let maxLength := 500
  let summary := summaryLine e
  if summary.length > maxLength then String.mk (summary.data.take 500) ++ "..."
  else summary

/-- An audit event whose operation text is 600 characters long; all
other fields empty. -/
def longOperationAudit : EventData :=
  EventData.audit
    { Id := (""), CreationTime := (""),
      Operation := String.mk (List.replicate 600 'a'),
      UserId := (""), Workload := ("") }

/-! Specification-side notions used to state the claims. -/

/-- The caller-supplied tenant id after JavaScript truthiness: a
missing or empty tenant id counts as not supplied. -/
def suppliedTenant : Option String → Option String
  | none => none
  | some t => if t = ("") then none else some t

/-- The claim's matching predicate for one rule: enabled, of the
requested source, in tenant scope (tenant list absent or empty, or
containing the supplied tenant id), conditions satisfied under the
match mode (with an empty condition list never matching), and no
exception condition true. -/
def ruleFires (ev : JsValue) (source : RuleSource) (tenantId : Option String)
    (r : Rule) : Prop :=
  r.enabled = true ∧
  r.source = source ∧
  (r.tenantIds = none ∨ r.tenantIds = some [] ∨
    (∃ ts t, r.tenantIds = some ts ∧ suppliedTenant tenantId = some t ∧ t ∈ ts)) ∧
  r.conditions.rules ≠ [] ∧
  ((r.conditions.matchMode = MatchMode.all ∧
      ∀ c ∈ r.conditions.rules, evaluateCondition ev c = true) ∨
   (r.conditions.matchMode = MatchMode.any ∧
      ∃ c ∈ r.conditions.rules, evaluateCondition ev c = true)) ∧
  (∀ c ∈ r.exceptions.getD [], evaluateCondition ev c = false)

/-- A template split into literal text and interpolation tokens. -/
inductive TemplateSeg where
  | lit : List Char → TemplateSeg
  | tok : List Char → TemplateSeg

/-- Rendering of one segment back into template text: a token becomes
its inner path wrapped in double braces. -/
def renderSeg : TemplateSeg → List Char
  | .lit s => s
  | .tok p => '{' :: '{' :: (p ++ '}' :: '}' :: [])

/-- Rendering of a whole segment list into template text. -/
def renderTemplate (segs : List TemplateSeg) : List Char :=
  (segs.map renderSeg).flatten

/-- Does the text contain two adjacent opening braces. -/
def hasDoubleBrace : List Char → Bool
  | [] => false
  | [_] => false
  | c1 :: c2 :: rest => (c1 == '{' && c2 == '{') || hasDoubleBrace (c2 :: rest)

/-- Does the text end with an opening brace. -/
def endsWithBrace (l : List Char) : Bool :=
  l.getLast? == some '{'

/-- Well-formedness of a segment for the interpolation statement: a
literal contains no double opening brace and does not end in an
opening brace; a token's inner path is nonempty and free of closing
braces. -/
def segWf : TemplateSeg → Bool
  | .lit s => !(hasDoubleBrace s) && !(endsWithBrace s)
  | .tok p => !(p.isEmpty) && !(p.contains '}')

/-- The claim's segmentwise interpolation semantics: literal text is
kept unchanged; each token is replaced by the stringified value of its
trimmed path on the event, or by the empty text when that value is
absent or null. -/
def specInterp (ev : JsValue) : List TemplateSeg → List Char
  | [] => []
  | .lit s :: rest => s ++ specInterp ev rest
  | .tok p :: rest =>
    (let v := getNestedValue ev (jsTrim (String.mk p))
     if isVUndefined v || isVNull v then [] else (jsString v).data) ++
      specInterp ev rest

/-- The value of a big-endian digit list. -/
def digitsVal : List Nat → Nat
  | [] => 0
  | d :: ds => d * 10 ^ ds.length + digitsVal ds

end Beacon

/-! Helper lemmas. -/

theorem interpChars_nil (ev : Beacon.JsValue) : Beacon.interpChars ev [] = [] := by
  simp only [Beacon.interpChars]

theorem interpChars_cons_no (ev : Beacon.JsValue) (c : Char) (rest : List Char)
    (h : ¬(c = '{' ∧ rest.head? = some '{')) :
    Beacon.interpChars ev (c :: rest) = c :: Beacon.interpChars ev rest := by
  conv_lhs => rw [Beacon.interpChars]
  rw [if_neg h]

theorem interpChars_cons_tok (ev : Beacon.JsValue) (p rest2 rest : List Char)
    (hhead : rest.head? = some '{')
    (hsplit : Beacon.splitToken rest.tail = some (p, rest2)) :
    Beacon.interpChars ev ('{' :: rest) =
      Beacon.tokenReplacement ev p ++ Beacon.interpChars ev rest2 := by
  conv_lhs => rw [Beacon.interpChars]
  rw [if_pos ⟨rfl, hhead⟩]
  split
  · rename_i p2 r2 h2
    rw [hsplit] at h2
    injection h2 with h3
    injection h3 with h4 h5
    rw [h4, h5]
  · rename_i h2
    rw [hsplit] at h2
    exact absurd h2 (by simp)

theorem interpChars_cons_fail (ev : Beacon.JsValue) (rest : List Char)
    (hhead : rest.head? = some '{')
    (hsplit : Beacon.splitToken rest.tail = none) :
    Beacon.interpChars ev ('{' :: rest) = '{' :: Beacon.interpChars ev rest := by
  conv_lhs => rw [Beacon.interpChars]
  rw [if_pos ⟨rfl, hhead⟩]
  split
  · rename_i p2 r2 h2
    rw [hsplit] at h2
    exact absurd h2 (by simp)
  · rfl

theorem natDigits_lt_ten (n : Nat) : ∀ d ∈ Beacon.natDigits n, d < 10 := by
  induction n using Nat.strong_induction_on with
  | _ n ih =>
    rw [Beacon.natDigits]
    split
    · rename_i h10
      intro d hd
      simp at hd
      omega
    · rename_i h10
      intro d hd
      rw [List.mem_append] at hd
      rcases hd with hd | hd
      · exact ih (n / 10) (Nat.div_lt_self (by omega) (by omega)) d hd
      · simp at hd
        subst hd
        exact Nat.mod_lt _ (by omega)

theorem natDigits_len_le (k : Nat) : ∀ n : Nat, n < 10 ^ k → 1 ≤ k →
    (Beacon.natDigits n).length ≤ k := by
  induction k with
  | zero => omega
  | succ k ih =>
    intro n hn hk
    rw [Beacon.natDigits]
    split
    · rename_i h10
      simp
    · rename_i h10
      rw [List.length_append]
      simp only [List.length_cons, List.length_nil]
      have hk1 : 1 ≤ k := by
        rcases Nat.eq_zero_or_pos k with hk0 | hk0
        · subst hk0
          norm_num at hn
          omega
        · exact hk0
      have hdiv : n / 10 < 10 ^ k := by
        rw [pow_succ] at hn
        exact Nat.div_lt_iff_lt_mul (by omega) |>.mpr hn
      have := ih (n / 10) hdiv hk1
      omega

theorem digitsVal_append (l1 l2 : List Nat) :
    Beacon.digitsVal (l1 ++ l2) =
      Beacon.digitsVal l1 * 10 ^ l2.length + Beacon.digitsVal l2 := by
  induction l1 with
  | nil => simp [Beacon.digitsVal]
  | cons d t ih =>
    simp only [List.cons_append, Beacon.digitsVal, ih, List.length_append,
      List.append_eq]
    ring

theorem digitsVal_natDigits (n : Nat) :
    Beacon.digitsVal (Beacon.natDigits n) = n := by
  induction n using Nat.strong_induction_on with
  | _ n ih =>
    rw [Beacon.natDigits]
    split
    · rename_i h10
      simp [Beacon.digitsVal]
    · rename_i h10
      rw [digitsVal_append, ih (n / 10) (Nat.div_lt_self (by omega) (by omega))]
      simp [Beacon.digitsVal]
      omega

theorem digitsVal_lt_pow (ds : List Nat) (h : ∀ d ∈ ds, d < 10) :
    Beacon.digitsVal ds < 10 ^ ds.length := by
  induction ds with
  | nil => simp [Beacon.digitsVal]
  | cons d t ih =>
    simp only [Beacon.digitsVal, List.length_cons]
    have hP : (0:Nat) < 10 ^ t.length := Nat.pos_pow_of_pos _ (by omega)
    have hv : Beacon.digitsVal t < 10 ^ t.length := ih (fun x hx => h x (by simp [hx]))
    have hd : d + 1 ≤ 10 := h d (by simp)
    calc d * 10 ^ t.length + Beacon.digitsVal t
        < d * 10 ^ t.length + 10 ^ t.length := by omega
      _ = (d + 1) * 10 ^ t.length := by ring
      _ ≤ 10 * 10 ^ t.length := Nat.mul_le_mul_right _ hd
      _ = 10 ^ (t.length + 1) := by rw [pow_succ]; ring

theorem digitChar_lt (d1 d2 : Nat) (h1 : d1 < 10) (h2 : d2 < 10) (h : d1 < d2) :
    Beacon.digitChar d1 < Beacon.digitChar d2 := by
  interval_cases d1 <;> interval_cases d2 <;> first | omega | decide

theorem digits_map_lt (ds1 : List Nat) : ∀ ds2 : List Nat,
    ds1.length = ds2.length → (∀ d ∈ ds1, d < 10) → (∀ d ∈ ds2, d < 10) →
    Beacon.digitsVal ds1 < Beacon.digitsVal ds2 →
    List.Lex (· < ·) (ds1.map Beacon.digitChar) (ds2.map Beacon.digitChar) := by
  induction ds1 with
  | nil =>
    intro ds2 hlen h1 h2 hval
    cases ds2 with
    | nil => simp [Beacon.digitsVal] at hval
    | cons d t => simp at hlen
  | cons d1 t1 ih =>
    intro ds2 hlen h1 h2 hval
    cases ds2 with
    | nil => simp at hlen
    | cons d2 t2 =>
      simp only [List.length_cons] at hlen
      have hlen2 : t1.length = t2.length := by omega
      simp only [Beacon.digitsVal, hlen2] at hval
      have hv1 : Beacon.digitsVal t1 < 10 ^ t1.length :=
        digitsVal_lt_pow t1 (fun x hx => h1 x (by simp [hx]))
      have hv2 : Beacon.digitsVal t2 < 10 ^ t2.length :=
        digitsVal_lt_pow t2 (fun x hx => h2 x (by simp [hx]))
      simp only [List.map_cons]
      rcases lt_trichotomy d1 d2 with hlt | heq | hgt
      · exact List.Lex.rel
          (digitChar_lt d1 d2 (h1 d1 (by simp)) (h2 d2 (by simp)) hlt)
      · subst heq
        have hvt : Beacon.digitsVal t1 < Beacon.digitsVal t2 := by omega
        exact List.Lex.cons
          (ih t2 hlen2 (fun x hx => h1 x (by simp [hx]))
            (fun x hx => h2 x (by simp [hx])) hvt)
      · exfalso
        have hle : (d2 + 1) * 10 ^ t2.length ≤ d1 * 10 ^ t2.length :=
          Nat.mul_le_mul_right _ (by omega)
        rw [Nat.succ_mul] at hle
        rw [hlen2] at hv1
        omega

theorem digitsVal_replicate_zero (k : Nat) :
    Beacon.digitsVal (List.replicate k 0) = 0 := by
  induction k with
  | zero => simp [Beacon.digitsVal]
  | succ k ih => simp [List.replicate_succ, Beacon.digitsVal, ih]

theorem invertedTimestamp_data (t : Nat) (h : t ≤ Beacon.maxTicks) :
    (Beacon.invertedTimestamp t).data =
      (List.replicate (13 - (Beacon.natDigits (Beacon.maxTicks - t)).length) 0 ++
        Beacon.natDigits (Beacon.maxTicks - t)).map Beacon.digitChar := by
  have hlt : Beacon.maxTicks - t < 10 ^ 13 := by
    have hm : Beacon.maxTicks < 10 ^ 13 := by norm_num [Beacon.maxTicks]
    omega
  have hlen : (Beacon.natDigits (Beacon.maxTicks - t)).length ≤ 13 :=
    natDigits_len_le 13 _ hlt (by omega)
  rw [List.map_append, List.map_replicate]
  have h0 : Beacon.digitChar 0 = '0' := rfl
  rw [h0]
  simp only [Beacon.invertedTimestamp, Beacon.padStart, Beacon.natDecimal]
  split
  · rename_i hge
    rw [String.length_mk, List.length_map] at hge
    have hlen13 : (Beacon.natDigits (Beacon.maxTicks - t)).length = 13 := by omega
    rw [hlen13]
    simp
  · rename_i hnge
    simp [String.length_mk, List.length_map]

theorem invertedTimestamp_length (t : Nat) (h : t ≤ Beacon.maxTicks) :
    (Beacon.invertedTimestamp t).length = 13 := by
  have hlt : Beacon.maxTicks - t < 10 ^ 13 := by
    have hm : Beacon.maxTicks < 10 ^ 13 := by norm_num [Beacon.maxTicks]
    omega
  have hlen : (Beacon.natDigits (Beacon.maxTicks - t)).length ≤ 13 :=
    natDigits_len_le 13 _ hlt (by omega)
  have hd := congrArg List.length (invertedTimestamp_data t h)
  simp only [List.length_map, List.length_append, List.length_replicate] at hd
  show (Beacon.invertedTimestamp t).data.length = 13
  omega

theorem takeWhile_no_close_brace (p t : List Char) (h : ∀ c ∈ p, c ≠ '}') :
    (p ++ '}' :: t).takeWhile (fun c => c ≠ '}') = p := by
  induction p with
  | nil => simp
  | cons c p2 ih =>
    have hc : c ≠ '}' := h c (by simp)
    simp only [List.cons_append, List.takeWhile_cons]
    rw [if_pos (by simpa using hc)]
    rw [ih (fun x hx => h x (by simp [hx]))]

theorem splitToken_render (p rest : List Char) (hp : p ≠ [])
    (hnb : ∀ c ∈ p, c ≠ '}') :
    Beacon.splitToken (p ++ '}' :: '}' :: rest) = some (p, rest) := by
  have htake : (p ++ '}' :: '}' :: rest).takeWhile (fun c => c ≠ '}') = p :=
    takeWhile_no_close_brace p ('}' :: rest) hnb
  simp only [Beacon.splitToken, htake]
  rw [if_neg (by simp [hp])]
  rw [List.drop_left]
  rfl

theorem interpChars_token (ev : Beacon.JsValue) (p rest : List Char)
    (hp : p ≠ []) (hnb : ∀ c ∈ p, c ≠ '}') :
    Beacon.interpChars ev ('{' :: '{' :: (p ++ '}' :: '}' :: rest)) =
      Beacon.tokenReplacement ev p ++ Beacon.interpChars ev rest := by
  apply interpChars_cons_tok
  · rfl
  · show Beacon.splitToken (p ++ '}' :: '}' :: rest) = some (p, rest)
    exact splitToken_render p rest hp hnb

theorem interpChars_append_lit (ev : Beacon.JsValue) (s : List Char) :
    ∀ rest : List Char, Beacon.hasDoubleBrace s = false →
    Beacon.endsWithBrace s = false →
    Beacon.interpChars ev (s ++ rest) = s ++ Beacon.interpChars ev rest := by
  induction s with
  | nil =>
    intro rest hdb hend
    simp
  | cons c s2 ih =>
    intro rest hdb hend
    cases s2 with
    | nil =>
      have hc : c ≠ '{' := by
        simp only [Beacon.endsWithBrace, List.getLast?_singleton] at hend
        intro hcc
        subst hcc
        simp at hend
      rw [List.cons_append, List.nil_append]
      rw [interpChars_cons_no ev c rest (by intro hcontra; exact hc hcontra.1)]
      rfl
    | cons c2 s3 =>
      have hdb1 : ¬(c = '{' ∧ c2 = '{') := by
        simp only [Beacon.hasDoubleBrace, Bool.or_eq_false_iff,
          Bool.and_eq_false_iff] at hdb
        rcases hdb.1 with h | h <;> intro hcontra <;>
          simp [hcontra.1, hcontra.2] at h
      have hdb2 : Beacon.hasDoubleBrace (c2 :: s3) = false := by
        simp only [Beacon.hasDoubleBrace, Bool.or_eq_false_iff] at hdb
        exact hdb.2
      have hend2 : Beacon.endsWithBrace (c2 :: s3) = false := by
        simp only [Beacon.endsWithBrace, List.getLast?_cons_cons] at hend ⊢
        exact hend
      rw [List.cons_append]
      rw [interpChars_cons_no ev c ((c2 :: s3) ++ rest) ?_]
      · rw [ih rest hdb2 hend2]
        rfl
      · intro hcontra
        rcases hcontra with ⟨hc, hh⟩
        rw [List.cons_append] at hh
        simp at hh
        exact hdb1 ⟨hc, hh⟩

theorem find?_filter_and {α : Type} (l : List α) (q p : α → Bool) :
    (l.filter q).find? p = l.find? (fun a => q a && p a) := by
  rw [List.find?_filter]
  congr 1
  funext a
  cases hq : q a <;> cases hp : p a <;> simp [hq, hp]

theorem ruleSource_beq_iff (a b : Beacon.RuleSource) : (a == b) = true ↔ a = b := by
  cases a <;> cases b <;> decide

theorem tenantFilterOk_iff (tenantId : Option String) (r : Beacon.Rule) :
    Beacon.tenantFilterOk tenantId r = true ↔
      (r.tenantIds = none ∨ r.tenantIds = some [] ∨
        (∃ ts t, r.tenantIds = some ts ∧ Beacon.suppliedTenant tenantId = some t ∧
          t ∈ ts)) := by
  rcases hts : r.tenantIds with _ | ts
  · simp [Beacon.tenantFilterOk, hts]
  · cases ts with
    | nil => simp [Beacon.tenantFilterOk, hts]
    | cons t0 ts2 =>
      simp only [Beacon.tenantFilterOk, hts]
      cases tenantId with
      | none => simp [Beacon.suppliedTenant]
      | some t =>
        by_cases ht : t = ("")
        · subst ht
          simp [Beacon.suppliedTenant]
        · simp [Beacon.suppliedTenant, ht, List.contains_iff_exists_mem_beq]

theorem evaluateConditions_iff (ev : Beacon.JsValue) (conds : Beacon.RuleConditions) :
    Beacon.evaluateConditions ev conds = true ↔
      (conds.rules ≠ [] ∧
        ((conds.matchMode = Beacon.MatchMode.all ∧
            ∀ c ∈ conds.rules, Beacon.evaluateCondition ev c = true) ∨
         (conds.matchMode = Beacon.MatchMode.any ∧
            ∃ c ∈ conds.rules, Beacon.evaluateCondition ev c = true))) := by
  by_cases hemp : conds.rules = []
  · simp [Beacon.evaluateConditions, hemp]
  · have hne : conds.rules.isEmpty = false := by
      simp [List.isEmpty_iff, hemp]
    cases hm : conds.matchMode
    · simp [Beacon.evaluateConditions, hne, hm, List.all_eq_true, hemp]
    · simp [Beacon.evaluateConditions, hne, hm, List.any_eq_true, hemp]

theorem matchesException_neg_iff (ev : Beacon.JsValue)
    (exc : Option (List Beacon.RuleCondition)) :
    (!(Beacon.matchesException ev exc)) = true ↔
      ∀ c ∈ exc.getD [], Beacon.evaluateCondition ev c = false := by
  rcases exc with _ | l
  · simp [Beacon.matchesException]
  · cases l with
    | nil => simp [Beacon.matchesException]
    | cons c0 l2 =>
      simp [Beacon.matchesException, List.any_eq_true]

theorem ruleFires_iff (ev : Beacon.JsValue) (source : Beacon.RuleSource)
    (tenantId : Option String) (r : Beacon.Rule) :
    Beacon.ruleFires ev source tenantId r ↔
      (Beacon.ruleApplicable source tenantId r &&
        (Beacon.evaluateConditions ev r.conditions &&
          !(Beacon.matchesException ev r.exceptions))) = true := by
  simp only [Beacon.ruleApplicable, Bool.and_eq_true]
  rw [ruleSource_beq_iff, tenantFilterOk_iff, evaluateConditions_iff]
  rw [show (!(Beacon.matchesException ev r.exceptions)) = true ↔
      ∀ c ∈ r.exceptions.getD [], Beacon.evaluateCondition ev c = false from
    matchesException_neg_iff ev r.exceptions]
  unfold Beacon.ruleFires
  tauto

/-! Claim theorems. -/

/-- C7: interpolation replaces each double-brace token with the
stringified value of the trimmed dotted path read from the event (empty
when absent or null) and keeps the surrounding literal text unchanged:
on any template assembled from well-formed literal and token segments,
the scanner yields exactly the segmentwise substitution; and condition
operators are applied to the substituted expected value. -/
theorem c7_interpolation_spec (ev : Beacon.JsValue) (segs : List Beacon.TemplateSeg)
    (hwf : ∀ s ∈ segs, Beacon.segWf s = true) :
    Beacon.interpChars ev (Beacon.renderTemplate segs) = Beacon.specInterp ev segs ∧
    Beacon.interpolateTemplateValue (String.mk (Beacon.renderTemplate segs)) ev =
      String.mk (Beacon.specInterp ev segs) ∧
    (∀ (cond : Beacon.RuleCondition) (t : String), cond.value = some t →
      Beacon.evaluateCondition ev cond =
        Beacon.matchesOperator (Beacon.getNestedValue ev cond.field) cond.operator
          (some (Beacon.interpolateTemplateValue t ev))) := by
  have hmain : Beacon.interpChars ev (Beacon.renderTemplate segs) =
      Beacon.specInterp ev segs := by
    induction segs with
    | nil => simp [Beacon.renderTemplate, Beacon.specInterp, interpChars_nil]
    | cons seg rest ih =>
      have hwseg : Beacon.segWf seg = true := hwf seg (by simp)
      have hwrest : ∀ s ∈ rest, Beacon.segWf s = true :=
        fun s hs => hwf s (by simp [hs])
      have ihr := ih hwrest
      cases seg with
      | lit s =>
        have hdb : Beacon.hasDoubleBrace s = false := by
          simp only [Beacon.segWf, Bool.and_eq_true, Bool.not_eq_true'] at hwseg
          exact hwseg.1
        have hend : Beacon.endsWithBrace s = false := by
          simp only [Beacon.segWf, Bool.and_eq_true, Bool.not_eq_true'] at hwseg
          exact hwseg.2
        simp only [Beacon.renderTemplate, List.map_cons, List.flatten_cons,
          Beacon.renderSeg] at ihr ⊢
        rw [interpChars_append_lit ev s _ hdb hend, ihr]
        simp [Beacon.specInterp]
      | tok p =>
        have hp : p ≠ [] := by
          simp only [Beacon.segWf, Bool.and_eq_true, Bool.not_eq_true'] at hwseg
          simpa [List.isEmpty_iff] using hwseg.1
        have hnb : ∀ c ∈ p, c ≠ '}' := by
          simp only [Beacon.segWf, Bool.and_eq_true, Bool.not_eq_true'] at hwseg
          intro c hc hcontra
          subst hcontra
          have hcon : p.contains '}' = true := by
            rw [List.contains_iff_exists_mem_beq]
            exact ⟨'}', hc, by simp⟩
          rw [hwseg.2] at hcon
          simp at hcon
        simp only [Beacon.renderTemplate, List.map_cons, List.flatten_cons,
          Beacon.renderSeg] at ihr ⊢
        have hshape : ('{' :: '{' :: (p ++ '}' :: '}' :: [])) ++
            (rest.map Beacon.renderSeg).flatten =
            '{' :: '{' :: (p ++ '}' :: '}' :: (rest.map Beacon.renderSeg).flatten) := by
          simp
        rw [hshape, interpChars_token ev p _ hp hnb, ihr]
        simp [Beacon.specInterp, Beacon.tokenReplacement]
  refine ⟨hmain, ?_, ?_⟩
  · show String.mk (Beacon.interpChars ev (Beacon.renderTemplate segs)) =
      String.mk (Beacon.specInterp ev segs)
    rw [hmain]
  · intro cond t h
    simp [Beacon.evaluateCondition, h]

/-- C7 witness: the template with literal text and one token over a
concrete event. -/
theorem c7_interpolation_spec_witness :
    Beacon.interpChars (Beacon.JsValue.vobj [(("x"), Beacon.JsValue.vstr ("1"))])
      (Beacon.renderTemplate
        [Beacon.TemplateSeg.lit ['a'], Beacon.TemplateSeg.tok ['x']]) =
      Beacon.specInterp (Beacon.JsValue.vobj [(("x"), Beacon.JsValue.vstr ("1"))])
        [Beacon.TemplateSeg.lit ['a'], Beacon.TemplateSeg.tok ['x']] ∧
    Beacon.interpolateTemplateValue
        (String.mk (Beacon.renderTemplate
          [Beacon.TemplateSeg.lit ['a'], Beacon.TemplateSeg.tok ['x']]))
        (Beacon.JsValue.vobj [(("x"), Beacon.JsValue.vstr ("1"))]) =
      String.mk (Beacon.specInterp
        (Beacon.JsValue.vobj [(("x"), Beacon.JsValue.vstr ("1"))])
        [Beacon.TemplateSeg.lit ['a'], Beacon.TemplateSeg.tok ['x']]) ∧
    (∀ (cond : Beacon.RuleCondition) (t : String), cond.value = some t →
      Beacon.evaluateCondition
          (Beacon.JsValue.vobj [(("x"), Beacon.JsValue.vstr ("1"))]) cond =
        Beacon.matchesOperator
          (Beacon.getNestedValue
            (Beacon.JsValue.vobj [(("x"), Beacon.JsValue.vstr ("1"))]) cond.field)
          cond.operator
          (some (Beacon.interpolateTemplateValue t
            (Beacon.JsValue.vobj [(("x"), Beacon.JsValue.vstr ("1"))])))) :=
  c7_interpolation_spec (Beacon.JsValue.vobj [(("x"), Beacon.JsValue.vstr ("1"))])
    [Beacon.TemplateSeg.lit ['a'], Beacon.TemplateSeg.tok ['x']] (by decide)

/-- C1: the rule evaluator returns exactly the first rule (in input
order) that is enabled, matches the requested source, is in tenant
scope (tenant list absent or empty, or containing the supplied,
nonempty tenant id), satisfies its match mode over its conditions
(an empty condition list never matches), and has no exception condition
evaluating to true; when no rule qualifies the result is null. -/
theorem c1_evaluateRules_spec (ev : Beacon.JsValue) (source : Beacon.RuleSource)
    (rules : List Beacon.Rule) (tenantId : Option String) :
    (∀ r : Beacon.Rule,
      Beacon.evaluateRules ev source rules tenantId = some r ↔
        ∃ pre post, rules = pre ++ r :: post ∧
          Beacon.ruleFires ev source tenantId r ∧
          ∀ r2 ∈ pre, ¬ Beacon.ruleFires ev source tenantId r2) ∧
    (Beacon.evaluateRules ev source rules tenantId = none ↔
      ∀ r ∈ rules, ¬ Beacon.ruleFires ev source tenantId r) := by
  have hrw : Beacon.evaluateRules ev source rules tenantId =
      rules.find? (fun r => Beacon.ruleApplicable source tenantId r &&
        (Beacon.evaluateConditions ev r.conditions &&
          !(Beacon.matchesException ev r.exceptions))) := by
    unfold Beacon.evaluateRules
    rw [find?_filter_and]
  constructor
  · intro r
    rw [hrw, List.find?_eq_some]
    constructor
    · rintro ⟨hp, pre, post, heq, hall⟩
      refine ⟨pre, post, heq, (ruleFires_iff ev source tenantId r).mpr hp, ?_⟩
      intro r2 hr2
      have := hall r2 hr2
      rw [ruleFires_iff]
      simp only [Bool.not_eq_true'] at this
      simp [this]
    · rintro ⟨pre, post, heq, hfires, hnone⟩
      refine ⟨(ruleFires_iff ev source tenantId r).mp hfires, pre, post, heq, ?_⟩
      intro r2 hr2
      have := hnone r2 hr2
      rw [ruleFires_iff] at this
      simp only [Bool.not_eq_true] at this ⊢
      simp [this]
  · rw [hrw, List.find?_eq_none]
    constructor
    · intro hnone r hr
      rw [ruleFires_iff]
      exact hnone r hr
    · intro hnone r hr
      have := hnone r hr
      rw [ruleFires_iff] at this
      exact this

/-- C9: the run-history row key is the zero-padded 13-character decimal
of the sentinel minus the start instant, and the mapping is strictly
order-reversing on start instants: an earlier start yields a strictly
larger row key of the same fixed width, so ascending row-key iteration
is newest-first. -/
theorem c9_invertedTimestamp_spec (t1 t2 : Nat) (h12 : t1 < t2)
    (h2 : t2 ≤ Beacon.maxTicks) :
    Beacon.invertedTimestamp t1 =
      Beacon.padStart (Beacon.natDecimal (Beacon.maxTicks - t1)) 13 '0' ∧
    (Beacon.invertedTimestamp t1).length = 13 ∧
    (Beacon.invertedTimestamp t2).length = 13 ∧
    Beacon.invertedTimestamp t2 < Beacon.invertedTimestamp t1 := by
  have h1 : t1 ≤ Beacon.maxTicks := by omega
  refine ⟨rfl, invertedTimestamp_length t1 h1, invertedTimestamp_length t2 h2, ?_⟩
  rw [String.lt_iff_toList_lt]
  change List.Lex (· < ·) (Beacon.invertedTimestamp t2).data
    (Beacon.invertedTimestamp t1).data
  rw [invertedTimestamp_data t2 h2, invertedTimestamp_data t1 h1]
  have hm : Beacon.maxTicks < 10 ^ 13 := by norm_num [Beacon.maxTicks]
  have hlen1 : (Beacon.natDigits (Beacon.maxTicks - t1)).length ≤ 13 :=
    natDigits_len_le 13 _ (by omega) (by omega)
  have hlen2 : (Beacon.natDigits (Beacon.maxTicks - t2)).length ≤ 13 :=
    natDigits_len_le 13 _ (by omega) (by omega)
  apply digits_map_lt
  · simp only [List.length_append, List.length_replicate]
    omega
  · intro d hd
    rw [List.mem_append] at hd
    rcases hd with hd | hd
    · rw [List.eq_of_mem_replicate hd]
      omega
    · exact natDigits_lt_ten _ d hd
  · intro d hd
    rw [List.mem_append] at hd
    rcases hd with hd | hd
    · rw [List.eq_of_mem_replicate hd]
      omega
    · exact natDigits_lt_ten _ d hd
  · rw [digitsVal_append, digitsVal_append, digitsVal_replicate_zero,
      digitsVal_natDigits, digitsVal_natDigits]
    simp
    omega

/-- C9 witness: at start instants 0 and 1, both keys have width 13 and
the later instant has the strictly smaller key. -/
theorem c9_invertedTimestamp_spec_witness :
    Beacon.invertedTimestamp 0 =
      Beacon.padStart (Beacon.natDecimal (Beacon.maxTicks - 0)) 13 '0' ∧
    (Beacon.invertedTimestamp 0).length = 13 ∧
    (Beacon.invertedTimestamp 1).length = 13 ∧
    Beacon.invertedTimestamp 1 < Beacon.invertedTimestamp 0 :=
  c9_invertedTimestamp_spec 0 1 (by decide) (by norm_num [Beacon.maxTicks])

/-- C6: the polling window lower bound is now minus 60 minutes for a
tenant without a last poll, otherwise the maximum of the last poll and
now minus 360 minutes; consequently it is never more than 360 minutes
before now. -/
theorem c6_computeSince_spec (now : Int) (lastPoll : Option Int) :
    Beacon.computeSince now none = now - 60 * 60 * 1000 ∧
    (∀ t : Int, Beacon.computeSince now (some t) = max t (now - 360 * 60 * 1000)) ∧
    now - Beacon.computeSince now lastPoll ≤ 360 * 60 * 1000 := by
  refine ⟨rfl, ?_, ?_⟩
  · intro t
    simp only [Beacon.computeSince, Beacon.maxLookback]
    split <;> omega
  · cases lastPoll with
    | none =>
      simp only [Beacon.computeSince, Beacon.defaultLookback]
      omega
    | some t =>
      simp only [Beacon.computeSince, Beacon.maxLookback]
      split <;> omega

/-- C3: a missing dedup entry is never a duplicate, and a present entry
is a duplicate exactly when the absolute difference between the event
time and the stored timestamp is strictly below five minutes; at
exactly five minutes the event is not a duplicate. -/
theorem c3_isDuplicate_spec (hash : String → String) (dedup : Beacon.DedupTable)
    (tenantId ruleName user : String) (eventTime : Int) :
    (Beacon.isDuplicate hash dedup tenantId ruleName user eventTime = true ↔
      ∃ stored,
        Beacon.tableGet dedup tenantId (Beacon.generateRowKey hash ruleName user) =
          some stored ∧ |eventTime - stored| < 5 * 60 * 1000) ∧
    (∀ stored,
      Beacon.tableGet dedup tenantId (Beacon.generateRowKey hash ruleName user) =
          some stored →
      |eventTime - stored| = 5 * 60 * 1000 →
      Beacon.isDuplicate hash dedup tenantId ruleName user eventTime = false) := by
  constructor
  · rcases hget : Beacon.tableGet dedup tenantId (Beacon.generateRowKey hash ruleName user)
      with _ | stored
    · simp [Beacon.isDuplicate, hget]
    · simp only [Beacon.isDuplicate, hget, Beacon.DEDUP_WINDOW_MS, decide_eq_true_eq,
        Option.some.injEq]
      constructor
      · intro hlt
        exact ⟨stored, rfl, by norm_num at hlt ⊢; exact hlt⟩
      · rintro ⟨s2, hs2, hlt⟩
        subst hs2
        norm_num at hlt ⊢
        exact hlt
  · intro stored hget heq
    simp only [Beacon.isDuplicate, hget, Beacon.DEDUP_WINDOW_MS]
    rw [heq]
    decide

/-- C3 witness: an entry stored at time 0 with the event exactly five
minutes later is not a duplicate. -/
theorem c3_isDuplicate_spec_witness :
    Beacon.isDuplicate (fun s => s)
      [((("t"), Beacon.generateRowKey (fun s => s) ("r") ("u")), (0 : Int))]
      ("t") ("r") ("u") 300000 = false :=
  (c3_isDuplicate_spec (fun s => s)
      [((("t"), Beacon.generateRowKey (fun s => s) ("r") ("u")), (0 : Int))]
      ("t") ("r") ("u") 300000).2 0 (by decide) (by decide)

/-- C10: a duplicate event is suppressed with no state change at all:
the pipeline returns no alert and leaves both the dedup and the
notification table exactly as they were. -/
theorem c10_processAlert_duplicate_frame (hash : String → String)
    (st : Beacon.AlertState) (now : Int) (tenantId ruleName : String)
    (severity : Beacon.Severity) (user : String) (eventTime : Int)
    (h : Beacon.isDuplicate hash st.dedup tenantId ruleName user eventTime = true) :
    Beacon.processAlert hash st now tenantId ruleName severity user eventTime =
      (none, st) := by
  simp [Beacon.processAlert, h]

/-- C10 witness: with a dedup entry at the same instant, the pipeline
suppresses and returns the state unchanged. -/
theorem c10_processAlert_duplicate_frame_witness :
    Beacon.processAlert (fun s => s)
      ⟨[((("t"), Beacon.generateRowKey (fun s => s) ("r") ("u")), (0 : Int))], []⟩
      0 ("t") ("r") Beacon.Severity.Low ("u") 0 =
      (none,
        ⟨[((("t"), Beacon.generateRowKey (fun s => s) ("r") ("u")), (0 : Int))], []⟩) :=
  c10_processAlert_duplicate_frame (fun s => s)
    ⟨[((("t"), Beacon.generateRowKey (fun s => s) ("r") ("u")), (0 : Int))], []⟩
    0 ("t") ("r") Beacon.Severity.Low ("u") 0 (by decide)

/-- Shape of the non-duplicate branch of `processAlert`: the emitted
alert and resulting state written out explicitly. -/
theorem processAlert_not_dup (hash : String → String)
    (st : Beacon.AlertState) (now : Int) (tenantId ruleName : String)
    (severity : Beacon.Severity) (user : String) (eventTime : Int)
    (h : Beacon.isDuplicate hash st.dedup tenantId ruleName user eventTime = false) :
    Beacon.processAlert hash st now tenantId ruleName severity user eventTime =
      (some { ClientTenantId := tenantId, User := user, RuleName := ruleName,
              Severity := severity, TimeGenerated := eventTime,
              ShouldNotify := severity == Beacon.Severity.Critical ||
                !(Beacon.wasNotifiedRecently hash st.notif now tenantId ruleName user) },
       if severity == Beacon.Severity.Critical ||
            !(Beacon.wasNotifiedRecently hash st.notif now tenantId ruleName user) then
         { dedup := Beacon.recordAlert hash st.dedup tenantId ruleName user eventTime,
           notif := Beacon.recordNotification hash st.notif now tenantId ruleName user }
       else
         ({ dedup := Beacon.recordAlert hash st.dedup tenantId ruleName user eventTime,
            notif := st.notif } : Beacon.AlertState)) := by
  simp [Beacon.processAlert, h]

/-- C4: for an event admitted past the dedup layer, a Critical rule
notifies unconditionally and the notification record is written
regardless of prior state; any other severity notifies exactly when no
recent notification exists, and the notification record is written
exactly when the flag is set. -/
theorem c4_processAlert_notify_spec (hash : String → String)
    (st : Beacon.AlertState) (now : Int) (tenantId ruleName : String)
    (severity : Beacon.Severity) (user : String) (eventTime : Int)
    (h : Beacon.isDuplicate hash st.dedup tenantId ruleName user eventTime = false) :
    ∃ a st2,
      Beacon.processAlert hash st now tenantId ruleName severity user eventTime =
        (some a, st2) ∧
      (severity = Beacon.Severity.Critical →
        a.ShouldNotify = true ∧
        st2.notif = Beacon.recordNotification hash st.notif now tenantId ruleName user) ∧
      (severity ≠ Beacon.Severity.Critical →
        a.ShouldNotify =
          !(Beacon.wasNotifiedRecently hash st.notif now tenantId ruleName user) ∧
        st2.notif =
          (if a.ShouldNotify then
            Beacon.recordNotification hash st.notif now tenantId ruleName user
          else st.notif)) := by
  refine ⟨_, _, processAlert_not_dup hash st now tenantId ruleName severity user eventTime h,
    ?_, ?_⟩
  · intro hc
    subst hc
    have hb : (Beacon.Severity.Critical == Beacon.Severity.Critical) = true := rfl
    simp [hb]
  · intro hc
    have hcb : (severity == Beacon.Severity.Critical) = false := by
      cases severity <;> first | rfl | exact absurd rfl hc
    rcases hrec : Beacon.wasNotifiedRecently hash st.notif now tenantId ruleName user
      with _ | _ <;> simp [hcb, hrec]

/-- C4 witness: starting from empty state, a Low-severity admitted
alert notifies (no recent notification) and records the notification. -/
theorem c4_processAlert_notify_spec_witness :
    ∃ a st2,
      Beacon.processAlert (fun s => s) ⟨[], []⟩ 0 ("t") ("r")
          Beacon.Severity.Low ("u") 0 = (some a, st2) ∧
      (Beacon.Severity.Low = Beacon.Severity.Critical →
        a.ShouldNotify = true ∧
        st2.notif = Beacon.recordNotification (fun s => s) [] 0 ("t") ("r") ("u")) ∧
      (Beacon.Severity.Low ≠ Beacon.Severity.Critical →
        a.ShouldNotify =
          !(Beacon.wasNotifiedRecently (fun s => s) [] 0 ("t") ("r") ("u")) ∧
        st2.notif =
          (if a.ShouldNotify then
            Beacon.recordNotification (fun s => s) [] 0 ("t") ("r") ("u")
          else [])) :=
  c4_processAlert_notify_spec (fun s => s) ⟨[], []⟩ 0 ("t") ("r")
    Beacon.Severity.Low ("u") 0 (by decide)

/-- C2, divergence witness: a failed tenant run still rewrites
`lastPoll` to the wall clock at write time. The claim (and the repo's
own documentation) requires a failed run to leave `lastPoll`
unchanged, but `updateClientStatus` writes `lastPoll` on every call,
including on the failure path. -/
theorem c2_failure_advances_lastPoll :
    (Beacon.tenantOutcomeWrite 2000
      { tenantId := ("t"), name := ("n"), lastPoll := some 1000,
        status := some Beacon.ClientStatus.success, statusMessage := some ("") }
      (Except.error (Beacon.ClientStatus.error, ("boom")))).lastPoll = some 2000 := by
  rfl

/-- C5, divergence witness: a `notEquals` condition whose field is
absent on the event evaluates to true for a non-empty expected value
(the absent value stringifies to the text undefined and compares
unequal), and also for the empty expected value; the claim (and the
spec) require false. The full condition evaluation on an empty event
confirms it. -/
theorem c5_notEquals_absent_is_true :
    Beacon.evaluateCondition (Beacon.JsValue.vobj [])
      { field := ("missing"), operator := Beacon.RuleOperator.NotEquals,
        value := some ("foo") } = true ∧
    Beacon.matchesOperator Beacon.JsValue.vundefined Beacon.RuleOperator.NotEquals
      (some ("foo")) = true ∧
    Beacon.matchesOperator Beacon.JsValue.vundefined Beacon.RuleOperator.NotEquals
      (some ("")) = true ∧
    Beacon.matchesOperator Beacon.JsValue.vundefined Beacon.RuleOperator.NotEquals
      none = false := by
  refine ⟨?_, ?_, ?_, ?_⟩
  · have hfoo : Beacon.interpChars (Beacon.JsValue.vobj [])
        (("foo").data) = ("foo").data := by
      have h2 := interpChars_append_lit (Beacon.JsValue.vobj []) (("foo").data) []
        (by decide) (by decide)
      simpa [interpChars_nil] using h2
    have hget : Beacon.getNestedValue (Beacon.JsValue.vobj []) ("missing") =
        Beacon.JsValue.vundefined := rfl
    simp only [Beacon.evaluateCondition, Option.map, Beacon.interpolateTemplateValue,
      hfoo, hget]
    simp only [Beacon.matchesOperator, Beacon.jsString]
    decide
  all_goals
    simp only [Beacon.matchesOperator, Beacon.jsString, Beacon.jsStringOfExpected] <;>
    decide

/-- C8, counterexample: an audit event whose operation text is 600
characters long produces a summary of 503 characters (500 kept plus a
three-character ellipsis), refuting the 500-character bound as stated. -/
theorem c8_summary_exceeds_500 :
    (Beacon.getEventSummary Beacon.longOperationAudit).length = 503 ∧
    500 < (Beacon.getEventSummary Beacon.longOperationAudit).length := by
  have hmain : (Beacon.getEventSummary Beacon.longOperationAudit).length = 503 := by
    have hop : (String.mk (List.replicate 600 'a')).length = 600 := by
      rw [String.length_mk, List.length_replicate]
    have hline : (Beacon.summaryLine Beacon.longOperationAudit).length = 631 := by
      show ("Operation: " ++ String.mk (List.replicate 600 'a') ++ ", User: " ++ "" ++
        ", Workload: " ++ "").length = 631
      rw [String.length_append, String.length_append, String.length_append,
        String.length_append, String.length_append, hop]
      decide
    have hgt : (Beacon.summaryLine Beacon.longOperationAudit).length > 500 := by
      rw [hline]
      norm_num
    simp only [Beacon.getEventSummary]
    rw [if_pos hgt]
    rw [String.length_append, String.length_mk, List.length_take]
    have hdata : (Beacon.summaryLine Beacon.longOperationAudit).data.length = 631 :=
      hline
    rw [hdata]
    decide
  exact ⟨hmain, by omega⟩

/-- C8, amended: every summary is at most 503 characters (the
500-character cut plus the ellipsis), and for each of the three source
types the summary reads only the selected salient fields: it is
unchanged when the event's other fields (id and creation instant)
change. -/
theorem c8_getEventSummary_amended :
    (∀ e : Beacon.EventData, (Beacon.getEventSummary e).length ≤ 503) ∧
    (∀ (a : Beacon.AuditEvent) (i t : String),
      Beacon.getEventSummary (Beacon.EventData.audit
        { a with Id := i, CreationTime := t }) =
        Beacon.getEventSummary (Beacon.EventData.audit a)) ∧
    (∀ (s : Beacon.SignInLog) (i t : String),
      Beacon.getEventSummary (Beacon.EventData.signIn
        { s with id := i, createdDateTime := t }) =
        Beacon.getEventSummary (Beacon.EventData.signIn s)) ∧
    (∀ (x : Beacon.SecurityAlert) (i t : String),
      Beacon.getEventSummary (Beacon.EventData.alert
        { x with id := i, createdDateTime := t }) =
        Beacon.getEventSummary (Beacon.EventData.alert x)) := by
  refine ⟨?_, fun a i t => rfl, fun s i t => rfl, fun x i t => rfl⟩
  intro e
  simp only [Beacon.getEventSummary]
  split
  · rename_i hgt
    rw [String.length_append, String.length_mk, List.length_take]
    have hdots : ("...").length = 3 := rfl
    rw [hdots]
    omega
  · rename_i hle
    omega
